import Mathlib

/-!
Shallow embedding of the MyCloneDashboard financial-dashboard application
(source file `App.tsx`, plus `types.ts`): the currency parser, the record
normalizer, the mock-data generator, the data loader, and the
filter/aggregation engine, with theorems checking the specification's
claims about them.

JavaScript numbers are modelled as rationals (`ℚ`); JSON/JS runtime values
as the inductive `JSVal`.  Number-parsing routines are split into a
syntactic stage over `ℤ × ℕ` (a value `n / 10 ^ e` in scaled-decimal form,
which the kernel can evaluate) and a conversion `scaledToQ` into `ℚ`.
-/

namespace Dashboard

/-- A JavaScript runtime value as it can appear in the webhook's JSON payload
or as a missing property access (`undefined`). Arrays appear only at the top
level of the payload (see `FetchBody`); they are not needed as field values
by any code path exercised here.  `vNum` is a *finite* JS number, modelled
exactly as a rational; the non-finite doubles (`Infinity`, `NaN`) are not
representable here — where the program can leave the finite range
(`parseFloat` overflow) the development accounts for it explicitly, see
`dblOverflow`. -/
inductive JSVal where
  | vNull
  | vUndefined
  | vBool (b : Bool)
  | vNum (q : ℚ)
  | vStr (s : String)
  | vObj (fields : List (String × JSVal))

/-- Property lookup on an object's field list; with duplicate keys the last
one wins, as in a JS object literal / `JSON.parse`. -/
def objGetList (fields : List (String × JSVal)) (k : String) : JSVal :=
  fields.foldl (fun acc p => if p.1 == k then p.2 else acc) JSVal.vUndefined

/-- Whether JS property access on this receiver throws a `TypeError`:
exactly `null` and `undefined` do. -/
def isNullish : JSVal → Bool
  | JSVal.vNull => true
  | JSVal.vUndefined => true
  | _ => false

/-- JS property access `item[k]` restricted to receivers on which it does
not throw (everything but `null`/`undefined`, see `objGetE`): `undefined`
on anything that is not an object with that key (the named keys used by
the normalizer do not exist on primitive wrappers). -/
def objGet : JSVal → String → JSVal
  | JSVal.vObj fs, k => objGetList fs k
  | _, _ => JSVal.vUndefined

/-- JS property access `item[k]` with its exception behavior: `none` is the
`TypeError` thrown on a `null`/`undefined` receiver, otherwise the access
returns a value. -/
def objGetE (v : JSVal) (k : String) : Option JSVal :=
  if isNullish v then none else some (objGet v k)

/-- JS truthiness: `null`, `undefined`, `false`, `0`, and `""` are falsy;
objects are truthy. (`NaN` does not arise: `ℚ` has no `NaN`.) -/
def truthy : JSVal → Bool
  | JSVal.vNull => false
  | JSVal.vUndefined => false
  | JSVal.vBool b => b
  | JSVal.vNum q => q != 0
  | JSVal.vStr s => s != ""
  | JSVal.vObj _ => true

/-- The JS `||` operator: the left operand if truthy, else the right. -/
def jsOr (a b : JSVal) : JSVal :=
  if truthy a then a else b

/-- Strict-equality test against `null` (`x !== null` is `!isNull x`). -/
def isNull : JSVal → Bool
  | JSVal.vNull => true
  | _ => false

/-- JS `toString()` as reachable from `parseCurrency`: the number case is
unreachable there (the `typeof val === 'number'` branch returns first), so
it is given a dummy value. -/
def jsToString : JSVal → String
  | JSVal.vNull => "null"
  | JSVal.vUndefined => "undefined"
  | JSVal.vBool true => "true"
  | JSVal.vBool false => "false"
  | JSVal.vNum _ => ""
  | JSVal.vStr s => s
  | JSVal.vObj _ => "[object Object]"

/-- The regex replace `/[^\d.-]/g` of `parseCurrency`: keep only digits,
`.` and `-`. -/
def cleanChars (s : String) : List Char :=
  s.data.filter (fun c => c.isDigit || c == '.' || c == '-')

/-- Numeric value of a digit string, most significant first. -/
def digitsVal (ds : List Char) : ℕ :=
  ds.foldl (fun a c => 10 * a + (c.toNat - 48)) 0

/-- The rational `n / 10 ^ e` denoted by a scaled-decimal pair. -/
def scaledToQ (p : ℤ × ℕ) : ℚ :=
  (p.1 : ℚ) / 10 ^ p.2

/-- Syntactic stage of ES `parseFloat`, restricted to strings over the
alphabet digits/`.`/`-` (all `parseCurrency` can feed it after cleaning —
no exponent marker, `Infinity`, or whitespace survives the regex): parse
the longest prefix of the form `[+-]? (digits+ (. digits*)? | . digits+)`,
returning the value in scaled-decimal form; `none` models the `NaN`
result.  The value is the *exact* decimal denoted by the prefix — the real
`parseFloat` rounds it to a double and in particular saturates to
`±Infinity` once the magnitude reaches `dblOverflow`; that departure from
finiteness is proved where it matters, in `parseCurrency_infinite_cex`. -/
def parseFloatScaled (cs : List Char) : Option (ℤ × ℕ) :=
  let sr : ℤ × List Char :=
    match cs with
    | '-' :: t => (-1, t)
    | '+' :: t => (1, t)
    | _ => (1, cs)
  let ip := sr.2.takeWhile Char.isDigit
  let rest := sr.2.dropWhile Char.isDigit
  match rest with
  | '.' :: rest2 =>
    let fp := rest2.takeWhile Char.isDigit
    if ip.isEmpty && fp.isEmpty then none
    else some (sr.1 * ((digitsVal ip : ℤ) * 10 ^ fp.length + (digitsVal fp : ℤ)), fp.length)
  | _ => if ip.isEmpty then none else some (sr.1 * (digitsVal ip : ℤ), 0)

/-- ES `parseFloat` on a cleaned character list, as a rational;
`none` is `NaN`. -/
def parseFloatQ (cs : List Char) : Option ℚ :=
  (parseFloatScaled cs).map scaledToQ

/-- Whether `parseCurrency`'s first guard fires:
`val === null || val === undefined || val === ''`. -/
def isEmptyInput : JSVal → Bool
  | JSVal.vNull => true
  | JSVal.vUndefined => true
  | JSVal.vStr s => s == ""
  | _ => false

/-- `parseCurrency` from `App.tsx`: nullish/empty input gives 0, numbers
pass through, anything else is stringified, stripped to digits/`.`/`-`,
and `parseFloat`ed, with `NaN` absorbed into 0. -/
def parseCurrency (v : JSVal) : ℚ :=
  if isEmptyInput v then 0
  else
    match v with
    | JSVal.vNum q => q
    | w =>
      match parseFloatQ (cleanChars (jsToString w)) with
      | some q => q
      | none => 0

/-- Evaluation rule for `parseCurrency` on a non-empty, non-number,
non-nullish value whose cleaned string parses. -/
theorem parseCurrency_eval {v : JSVal} {n : ℤ} {e : ℕ}
    (hne : isEmptyInput v = false) (hnum : ∀ q, v ≠ JSVal.vNum q)
    (h : parseFloatScaled (cleanChars (jsToString v)) = some (n, e)) :
    parseCurrency v = (n : ℚ) / 10 ^ e := by
  unfold parseCurrency
  rw [hne]
  cases v with
  | vNum q => exact absurd rfl (hnum q)
  | vNull => simp_all [isEmptyInput]
  | vUndefined => simp_all [isEmptyInput]
  | vBool b => simp [parseFloatQ, h, scaledToQ]
  | vStr s => simp [parseFloatQ, h, scaledToQ]
  | vObj fs => simp [parseFloatQ, h, scaledToQ]

/-- Evaluation rule for `parseCurrency` when the cleaned string does not
parse (`parseFloat` returns `NaN`). -/
theorem parseCurrency_eval_nan {v : JSVal}
    (hne : isEmptyInput v = false) (hnum : ∀ q, v ≠ JSVal.vNum q)
    (h : parseFloatScaled (cleanChars (jsToString v)) = none) :
    parseCurrency v = 0 := by
  unfold parseCurrency
  rw [hne]
  cases v with
  | vNum q => exact absurd rfl (hnum q)
  | vNull => simp_all [isEmptyInput]
  | vUndefined => simp_all [isEmptyInput]
  | vBool b => simp [parseFloatQ, h]
  | vStr s => simp [parseFloatQ, h]
  | vObj fs => simp [parseFloatQ, h]

example : parseCurrency (JSVal.vStr "$1,250.00") = 1250 := by
  rw [parseCurrency_eval (n := 125000) (e := 2) (by decide)
    (by intro q h; cases h) (by decide)]
  norm_num

example : parseCurrency JSVal.vNull = 0 := rfl
example : parseCurrency (JSVal.vNum 42) = 42 := rfl

example : parseCurrency (JSVal.vStr "abc") = 0 :=
  parseCurrency_eval_nan (by decide) (by intro q h; cases h) (by decide)

example : parseCurrency (JSVal.vStr "-$3.50") = -(7/2 : ℚ) := by
  rw [parseCurrency_eval (n := -350) (e := 2) (by decide)
    (by intro q h; cases h) (by decide)]
  norm_num

example : parseCurrency (JSVal.vObj []) = 0 :=
  parseCurrency_eval_nan (by decide) (by intro q h; cases h) (by decide)

/-- Strip leading and trailing whitespace, as `ToNumber` does on strings. -/
def trimChars (cs : List Char) : List Char :=
  ((cs.dropWhile Char.isWhitespace).reverse.dropWhile Char.isWhitespace).reverse

/-- Exponent part of a decimal literal: `[+-]? digits+`, which must consume
the whole remaining input. -/
def parseExpPart (r : List Char) : Option ℤ :=
  let sr : ℤ × List Char :=
    match r with
    | '-' :: rr => (-1, rr)
    | '+' :: rr => (1, rr)
    | _ => (1, r)
  let ds := sr.2.takeWhile Char.isDigit
  let rest := sr.2.dropWhile Char.isDigit
  if ds.isEmpty || !rest.isEmpty then none
  else some (sr.1 * (digitsVal ds : ℤ))

/-- Multiply a scaled-decimal value by `10 ^ ex`. -/
def applyExp (p : ℤ × ℕ) (ex : ℤ) : ℤ × ℕ :=
  let ne : ℤ := (p.2 : ℤ) - ex
  if ne ≤ 0 then (p.1 * 10 ^ (-ne).toNat, 0) else (p.1, ne.toNat)

/-- Syntactic stage of the JS `Number` conversion on a string (as used by
`split('/').map(Number)`): trimmed-empty input is 0, otherwise the whole
string must be a signed decimal literal `[+-]? (digits+ (. digits*)? |
. digits+) ([eE] [+-]? digits+)?`; `none` models `NaN`. (The hex/octal/
binary/`Infinity` literal forms are modelled as `NaN`; they cannot arise
from `MM/YYYY` data.) -/
def jsNumberScaled (cs : List Char) : Option (ℤ × ℕ) :=
  let t := trimChars cs
  if t.isEmpty then some (0, 0)
  else
    let sr : ℤ × List Char :=
      match t with
      | '-' :: r => (-1, r)
      | '+' :: r => (1, r)
      | _ => (1, t)
    let ip := sr.2.takeWhile Char.isDigit
    let rest := sr.2.dropWhile Char.isDigit
    let core : Option ((ℤ × ℕ) × List Char) :=
      match rest with
      | '.' :: r2 =>
        let fp := r2.takeWhile Char.isDigit
        let r3 := r2.dropWhile Char.isDigit
        if ip.isEmpty && fp.isEmpty then none
        else some ((sr.1 * ((digitsVal ip : ℤ) * 10 ^ fp.length + (digitsVal fp : ℤ)),
          fp.length), r3)
      | _ => if ip.isEmpty then none else some ((sr.1 * (digitsVal ip : ℤ), 0), rest)
    match core with
    | none => none
    | some (p, rest2) =>
      match rest2 with
      | [] => some p
      | 'e' :: r =>
        match parseExpPart r with
        | some ex => some (applyExp p ex)
        | none => none
      | 'E' :: r =>
        match parseExpPart r with
        | some ex => some (applyExp p ex)
        | none => none
      | _ => none

/-- JS `Number` of a character list, as a rational; `none` is `NaN`. -/
def jsNumberQ (cs : List Char) : Option ℚ :=
  (jsNumberScaled cs).map scaledToQ

/-- JS `String.prototype.split` with a one-character separator. -/
def splitOnChar (sep : Char) : List Char → List (List Char)
  | [] => [[]]
  | c :: t =>
    let r := splitOnChar sep t
    if c == sep then [] :: r
    else
      match r with
      | [] => [[c]]
      | p :: ps => (c :: p) :: ps

example : splitOnChar '/' "03/2024".data = [['0', '3'], ['2', '0', '2', '4']] := by decide
example : splitOnChar '/' "".data = [[]] := by decide

/-- The chronological key of the month comparator in `uniqueMonths`:
`const [ma, ya] = a.split('/').map(Number)` followed by `ya * 12 + ma`.
`none` models a `NaN` key (unparsable component, or a missing second
component, where destructuring yields `undefined` and `undefined * 12` is
`NaN`). -/
def monthKeyQ (s : String) : Option ℚ :=
  let parts := splitOnChar '/' s.data
  let mm : Option ℚ :=
    match parts with
    | p :: _ => jsNumberQ p
    | [] => none
  let yy : Option ℚ :=
    match parts.drop 1 with
    | p :: _ => jsNumberQ p
    | [] => none
  match mm, yy with
  | some m, some y => some (y * 12 + m)
  | _, _ => none

/-- The comparator passed to `.sort` in `uniqueMonths`: `'All'` compares
below everything, otherwise the difference of chronological keys. A `NaN`
comparator result is coerced to `+0` by the ES `SortCompare` operation,
modelled by returning 0 when either key is `none`. -/
def monthCmp (a b : String) : ℚ :=
  if a == "All" then -1
  else if b == "All" then 1
  else
    match monthKeyQ a, monthKeyQ b with
    | some x, some y => x - y
    | _, _ => 0

/-- The ordering relation induced by the month comparator: `a` may be
placed before `b` exactly when the comparator is nonpositive. -/
def monthRel (a b : String) : Prop := monthCmp a b ≤ 0

/-- Scaled-decimal twin of `monthKeyQ`, evaluable by the kernel. -/
def monthKeyScaled (s : String) : Option (ℤ × ℕ) :=
  let parts := splitOnChar '/' s.data
  let mm : Option (ℤ × ℕ) :=
    match parts with
    | p :: _ => jsNumberScaled p
    | [] => none
  let yy : Option (ℤ × ℕ) :=
    match parts.drop 1 with
    | p :: _ => jsNumberScaled p
    | [] => none
  match mm, yy with
  | some m, some y =>
    some ((y.1 * 12) * 10 ^ (max y.2 m.2 - y.2) + m.1 * 10 ^ (max y.2 m.2 - m.2), max y.2 m.2)
  | _, _ => none

/-- Comparison of scaled-decimal values by cross multiplication. -/
def scaledLe (p q : ℤ × ℕ) : Bool :=
  decide (p.1 * 10 ^ q.2 ≤ q.1 * 10 ^ p.2)

/-- Boolean twin of `monthRel`, evaluable by the kernel. -/
def monthRelB (a b : String) : Bool :=
  if a == "All" then true
  else if b == "All" then false
  else
    match monthKeyScaled a, monthKeyScaled b with
    | some x, some y => scaledLe x y
    | _, _ => true

theorem scaledToQ_le_iff (p q : ℤ × ℕ) :
    scaledToQ p ≤ scaledToQ q ↔ scaledLe p q = true := by
  unfold scaledToQ scaledLe
  rw [div_le_div_iff₀ (by positivity) (by positivity), decide_eq_true_iff]
  exact_mod_cast Iff.rfl

theorem scaledToQ_combine (m y : ℤ × ℕ) :
    scaledToQ (y.1 * 12 * 10 ^ (max y.2 m.2 - y.2) + m.1 * 10 ^ (max y.2 m.2 - m.2),
        max y.2 m.2) =
      scaledToQ y * 12 + scaledToQ m := by
  unfold scaledToQ
  simp only
  push_cast
  rw [add_div]
  congr 1
  · rw [show ((10 : ℚ) ^ (max y.2 m.2)) = 10 ^ y.2 * 10 ^ (max y.2 m.2 - y.2) by
      rw [← pow_add]; congr 1; omega]
    rw [mul_div_mul_right _ _ (by positivity)]
    ring
  · rw [show ((10 : ℚ) ^ (max y.2 m.2)) = 10 ^ m.2 * 10 ^ (max y.2 m.2 - m.2) by
      rw [← pow_add]; congr 1; omega]
    rw [mul_div_mul_right _ _ (by positivity)]

theorem monthKeyQ_eq_scaled (s : String) :
    monthKeyQ s = (monthKeyScaled s).map scaledToQ := by
  unfold monthKeyQ monthKeyScaled jsNumberQ
  cases hp : splitOnChar '/' s.data with
  | nil => simp
  | cons p ps =>
    cases ps with
    | nil =>
      cases jsNumberScaled p <;> simp
    | cons q qs =>
      cases hm2 : jsNumberScaled p with
      | none => simp [hm2]
      | some m =>
        cases hy2 : jsNumberScaled q with
        | none => simp [hm2, hy2]
        | some y =>
          simp only [hm2, hy2, List.drop_succ_cons, List.drop_zero]
          change some (scaledToQ y * 12 + scaledToQ m) = some (scaledToQ _)
          rw [scaledToQ_combine m y]

theorem monthRel_iff (a b : String) :
    monthRel a b ↔ monthRelB a b = true := by
  unfold monthRel monthRelB monthCmp
  by_cases ha : (a == "All") = true
  · simp [ha]
  · rw [Bool.not_eq_true] at ha
    by_cases hb : (b == "All") = true
    · simp [ha, hb]
    · rw [Bool.not_eq_true] at hb
      simp only [ha, hb, Bool.false_eq_true, if_false]
      rw [monthKeyQ_eq_scaled a, monthKeyQ_eq_scaled b]
      cases monthKeyScaled a with
      | none => cases monthKeyScaled b <;> simp
      | some x =>
        cases monthKeyScaled b with
        | none => simp
        | some y =>
          simp only [Option.map_some]
          change scaledToQ x - scaledToQ y ≤ 0 ↔ _
          rw [sub_nonpos, scaledToQ_le_iff]

instance monthRelDecidable : DecidableRel monthRel := fun a b =>
  decidable_of_iff (monthRelB a b = true) (monthRel_iff a b).symm

example : monthRelB "01/2024" "03/2024" = true := by decide
example : monthRelB "03/2024" "01/2024" = false := by decide
example : monthRelB "All" "01/2024" = true := by decide
example : monthRelB "01/2024" "All" = false := by decide
example : monthRelB "12/2023" "01/2024" = true := by decide

/-- Lexicographic order on character lists by code unit, the comparison the
parameterless JS `Array.prototype.sort` applies to strings (our data is
ASCII, where code-unit and code-point order agree). -/
def lexLe : List Char → List Char → Bool
  | [], _ => true
  | _ :: _, [] => false
  | a :: as, b :: bs =>
    if a.toNat < b.toNat then true
    else if b.toNat < a.toNat then false
    else lexLe as bs

theorem lexLe_cons_iff (a b : Char) (as bs : List Char) :
    lexLe (a :: as) (b :: bs) = true ↔
      a.toNat < b.toNat ∨
        (¬a.toNat < b.toNat ∧ ¬b.toNat < a.toNat ∧ lexLe as bs = true) := by
  simp only [lexLe]
  split_ifs with h1 h2 <;> simp_all

theorem lexLe_total : ∀ cs ds : List Char, lexLe cs ds = true ∨ lexLe ds cs = true
  | [], _ => Or.inl rfl
  | _ :: _, [] => Or.inr rfl
  | c :: cs, d :: ds => by
    rw [lexLe_cons_iff, lexLe_cons_iff]
    rcases Nat.lt_trichotomy c.toNat d.toNat with h | h | h
    · exact Or.inl (Or.inl h)
    · rcases lexLe_total cs ds with hr | hr
      · exact Or.inl (Or.inr ⟨by omega, by omega, hr⟩)
      · exact Or.inr (Or.inr ⟨by omega, by omega, hr⟩)
    · exact Or.inr (Or.inl h)

theorem lexLe_trans :
    ∀ cs ds es : List Char,
      lexLe cs ds = true → lexLe ds es = true → lexLe cs es = true
  | [], _, _, _, _ => rfl
  | _ :: _, [], _, h1, _ => by cases h1
  | _ :: _, _ :: _, [], _, h2 => by cases h2
  | c :: cs, d :: ds, e :: es, h1, h2 => by
    rw [lexLe_cons_iff] at h1 h2 ⊢
    rcases h1 with h1 | ⟨h1a, h1b, h1c⟩
    · rcases h2 with h2 | ⟨h2a, h2b, _⟩
      · exact Or.inl (h1.trans h2)
      · exact Or.inl (by omega)
    · rcases h2 with h2 | ⟨h2a, h2b, h2c⟩
      · exact Or.inl (by omega)
      · exact Or.inr ⟨by omega, by omega, lexLe_trans cs ds es h1c h2c⟩

/-- The ordering the parameterless `.sort()` of `uniqueNames` realizes on
strings. -/
def nameRel (a b : String) : Prop := lexLe a.data b.data = true

instance nameRelDecidable : DecidableRel nameRel := fun a b =>
  inferInstanceAs (Decidable (lexLe a.data b.data = true))

instance : IsTotal String nameRel := ⟨fun a b => lexLe_total a.data b.data⟩

instance : IsTrans String nameRel :=
  ⟨fun x y z hab hbc => lexLe_trans x.data y.data z.data hab hbc⟩

/-- Chronological key of a month string, with 0 (the `NaN` coercion target
in comparisons among unparsable keys) as default. -/
def monthKeyD (s : String) : ℚ := (monthKeyQ s).getD 0

/-- Total chronological order on month strings by their decoded keys. -/
def monthKeyRel (a b : String) : Prop := monthKeyD a ≤ monthKeyD b

instance monthKeyRelDecidable : DecidableRel monthKeyRel := fun a b =>
  inferInstanceAs (Decidable (monthKeyD a ≤ monthKeyD b))

instance : IsTotal String monthKeyRel := ⟨fun x y => le_total (monthKeyD x) (monthKeyD y)⟩

instance : IsTrans String monthKeyRel := ⟨fun _ _ _ hab hbc => le_trans hab hbc⟩

theorem orderedInsert_congr {α : Type} (r r' : α → α → Prop)
    [DecidableRel r] [DecidableRel r'] :
    ∀ (x : α) (l : List α), (∀ b ∈ l, r x b ↔ r' x b) →
      l.orderedInsert r x = l.orderedInsert r' x
  | _, [], _ => rfl
  | x, b :: l, h => by
    simp only [List.orderedInsert]
    by_cases hr : r x b
    · rw [if_pos hr, if_pos ((h b (List.mem_cons_self b l)).mp hr)]
    · rw [if_neg hr, if_neg fun hr' => hr ((h b (List.mem_cons_self b l)).mpr hr')]
      rw [orderedInsert_congr r r' x l fun b hb => h b (List.mem_cons_of_mem _ hb)]

theorem insertionSort_congr {α : Type} (r r' : α → α → Prop)
    [DecidableRel r] [DecidableRel r'] :
    ∀ l : List α, (∀ a ∈ l, ∀ b ∈ l, r a b ↔ r' a b) →
      l.insertionSort r = l.insertionSort r'
  | [], _ => rfl
  | a :: l, h => by
    simp only [List.insertionSort]
    rw [insertionSort_congr r r' l fun x hx y hy =>
      h x (List.mem_cons_of_mem _ hx) y (List.mem_cons_of_mem _ hy)]
    exact orderedInsert_congr r r' a _ fun b hb =>
      h a (List.mem_cons_self _ _) b
        (List.mem_cons_of_mem _ ((l.perm_insertionSort r').mem_iff.mp hb))

/-- Iteration of a JS `Set` built from a list: each element is kept at its
first occurrence, `seen` being the elements already in the set. -/
def dedupGo (seen : List String) : List String → List String
  | [] => []
  | x :: xs => if x ∈ seen then dedupGo seen xs else x :: dedupGo (x :: seen) xs

/-- `[...new Set(l)]`: the distinct elements of `l` in first-occurrence
order. -/
def jsSetDedup (l : List String) : List String := dedupGo [] l

theorem mem_dedupGo :
    ∀ (l seen : List String) (a : String),
      a ∈ dedupGo seen l ↔ a ∈ l ∧ a ∉ seen
  | [], seen, a => by simp [dedupGo]
  | x :: xs, seen, a => by
    by_cases hx : x ∈ seen
    · rw [dedupGo, if_pos hx, mem_dedupGo xs seen a]
      constructor
      · rintro ⟨h1, h2⟩
        exact ⟨List.mem_cons_of_mem _ h1, h2⟩
      · rintro ⟨h1, h2⟩
        rcases List.mem_cons.mp h1 with rfl | h1
        · exact absurd hx h2
        · exact ⟨h1, h2⟩
    · rw [dedupGo, if_neg hx]
      constructor
      · intro h
        rcases List.mem_cons.mp h with rfl | h1
        · exact ⟨List.mem_cons_self _ _, hx⟩
        · obtain ⟨h2, h3⟩ := (mem_dedupGo xs (x :: seen) a).mp h1
          exact ⟨List.mem_cons_of_mem _ h2, fun hs => h3 (List.mem_cons_of_mem _ hs)⟩
      · rintro ⟨h1, h2⟩
        rcases List.mem_cons.mp h1 with rfl | h3
        · exact List.mem_cons_self _ _
        · by_cases hax : a = x
          · subst hax
            exact List.mem_cons_self _ _
          · exact List.mem_cons_of_mem _ ((mem_dedupGo xs (x :: seen) a).mpr
              ⟨h3, fun hs => (List.mem_cons.mp hs).elim hax h2⟩)

theorem nodup_dedupGo : ∀ (l seen : List String), (dedupGo seen l).Nodup
  | [], _ => List.nodup_nil
  | x :: xs, seen => by
    by_cases hx : x ∈ seen
    · rw [dedupGo, if_pos hx]
      exact nodup_dedupGo xs seen
    · rw [dedupGo, if_neg hx]
      refine List.nodup_cons.mpr ⟨fun hmem => ?_, nodup_dedupGo xs (x :: seen)⟩
      exact ((mem_dedupGo xs (x :: seen) x).mp hmem).2 (List.mem_cons_self _ _)

theorem jsSetDedup_mem (l : List String) (a : String) :
    a ∈ jsSetDedup l ↔ a ∈ l := by
  rw [jsSetDedup, mem_dedupGo]
  simp

theorem jsSetDedup_nodup (l : List String) : (jsSetDedup l).Nodup :=
  nodup_dedupGo l []

/-- The `DataRecord` interface of `types.ts`: the canonical normalized
record, with string identity/label fields and numeric amounts. -/
structure DataRecord where
  id : String
  name : String
  potentialRevenue : ℚ
  invoiceAmount : ℚ
  dollarsCollected : ℚ
  expenseIncurred : ℚ
  netRevenue : ℚ
  monthYear : String
deriving DecidableEq

/-- The `LoadingStatus` enum of `types.ts`. -/
inductive LoadingStatus where
  | IDLE
  | LOADING
  | SUCCESS
  | ERROR
deriving DecidableEq

/-- The record produced by the normalizer map in `fetchData` as it exists
at runtime: the `id`, `name` and `monthYear` fields hold whatever JS value
the `||`-chains produce (the TS annotation `DataRecord` is erased and does
not coerce them), while the amounts are numbers from `parseCurrency`. -/
structure NormRecord where
  id : JSVal
  name : JSVal
  potentialRevenue : ℚ
  invoiceAmount : ℚ
  dollarsCollected : ℚ
  expenseIncurred : ℚ
  netRevenue : ℚ
  monthYear : JSVal

/-- The record normalizer: the body of `dataArray.map((item) => ...)` in
`fetchData`.  `genId` is the random identifier
`Math.random().toString(36).substr(2, 9)` drawn for the fallback branch of
the `id` chain; it is a parameter because `Math.random` is an external
source of randomness. -/
def formatRecord (genId : String) (item : JSVal) : NormRecord :=
  let pot := parseCurrency (objGet item "Potential Revenue")
  let inv := parseCurrency (objGet item "Invoice Amount")
  let coll := parseCurrency (objGet item "Dollars Collected")
  let exp := parseCurrency (objGet item "Expense Incurred")
  let net :=
    if !isNull (objGet item "Net Revenue") then parseCurrency (objGet item "Net Revenue")
    else coll - exp
  { id := jsOr (jsOr (jsOr (objGet item "Opportunity ID") (objGet item "id"))
      (objGet item "key")) (JSVal.vStr genId)
    name := jsOr (jsOr (objGet item "Name") (objGet item "name"))
      (JSVal.vStr "Unknown Entity")
    potentialRevenue := pot
    invoiceAmount := inv
    dollarsCollected := coll
    expenseIncurred := exp
    netRevenue := net
    monthYear := jsOr (jsOr (objGet item "MM/YYYY") (objGet item "monthYear"))
      (JSVal.vStr "01/2024") }

/-- The five entity names of the mock generator. -/
def mockNames : List String :=
  ["Acme Corp", "Globex", "Soylent Corp", "Initech", "Umbrella Co"]

/-- The five months of the mock generator. -/
def mockMonths : List String :=
  ["01/2024", "02/2024", "03/2024", "04/2024", "05/2024"]

/-- One record of the mock generator, given the three random draws in
`[0, 1)` used for `pot`, `coll` and `exp` and the random id string. -/
def mockRecord (rid : String) (r1 r2 r3 : ℚ) (name month : String) : DataRecord :=
  let pot : ℚ := (⌊r1 * 15000⌋ : ℤ) + 5000
  let inv : ℚ := pot * 0.85
  let coll : ℚ := inv * (0.7 + r2 * 0.3)
  let exp : ℚ := (⌊r3 * 4000⌋ : ℤ) + 500
  { id := rid
    name := name
    potentialRevenue := pot
    invoiceAmount := inv
    dollarsCollected := coll
    expenseIncurred := exp
    netRevenue := coll - exp
    monthYear := month }

/-- `generateMockData`: the two nested `forEach` loops, 5 entities × 5
months.  `rnd` supplies the three `Math.random()` draws and `rid` the
random id for the record with the given flat index. -/
def generateMockData (rnd : ℕ → ℚ × ℚ × ℚ) (rid : ℕ → String) : List DataRecord :=
  mockNames.enum.flatMap fun np =>
    mockMonths.enum.map fun mp =>
      let k := 5 * np.1 + mp.1
      mockRecord (rid k) (rnd k).1 (rnd k).2.1 (rnd k).2.2 np.2 mp.2

/-- Coercion of a well-typed `DataRecord` (as the mock generator produces)
into the runtime record shape. -/
def toNorm (r : DataRecord) : NormRecord :=
  { id := JSVal.vStr r.id
    name := JSVal.vStr r.name
    potentialRevenue := r.potentialRevenue
    invoiceAmount := r.invoiceAmount
    dollarsCollected := r.dollarsCollected
    expenseIncurred := r.expenseIncurred
    netRevenue := r.netRevenue
    monthYear := JSVal.vStr r.monthYear }

/-- The JSON body of a successful webhook response: a single object or an
array (`Array.isArray` distinguishes them). -/
inductive FetchBody where
  | single (v : JSVal)
  | arrayOf (l : List JSVal)

/-- Outcome of the webhook call: HTTP failure (`!response.ok`), JSON parse
failure (`response.json()` throws), or a parsed body. -/
inductive FetchOutcome where
  | httpError
  | jsonError
  | ok (body : FetchBody)

/-- The loader state this run ends in: the record collection, the
`usingMockData` flag, and the final `status`. -/
structure LoaderResult where
  records : List NormRecord
  usingMockData : Bool
  status : LoadingStatus

/-- `Array.isArray(data) ? data : [data]`. -/
def toArray : FetchBody → List JSVal
  | FetchBody.single v => [v]
  | FetchBody.arrayOf l => l

/-- The `catch` branch of `fetchData`: mock data, `usingMockData = true`,
status `SUCCESS`. -/
def mockResult (rnd : ℕ → ℚ × ℚ × ℚ) (rid : ℕ → String) : LoaderResult :=
  { records := (generateMockData rnd rid).map toNorm
    usingMockData := true
    status := LoadingStatus.SUCCESS }

/-- The normalizer map body with its exception behavior: every property
access in it has receiver `item`, so the body throws a `TypeError` (`none`)
exactly when `item` is `null`/`undefined` — at the very first access,
`item['Potential Revenue']` — and otherwise completes as `formatRecord`. -/
def formatRecordE (genId : String) (item : JSVal) : Option NormRecord :=
  match objGetE item "Potential Revenue" with
  | none => none
  | some _ => some (formatRecord genId item)

/-- `dataArray.map(item => ...)` with exception propagation and index
threading: a `TypeError` thrown by an element's normalization aborts the
map and propagates (`none`), discarding the partial results. -/
def mapFormat (genIds : ℕ → String) : ℕ → List JSVal → Option (List NormRecord)
  | _, [] => some []
  | i, item :: rest =>
    match formatRecordE (genIds i) item with
    | none => none
    | some r =>
      match mapFormat genIds (i + 1) rest with
      | none => none
      | some rs => some (r :: rs)

/-- The `fetchData` effect of `App.tsx`, as a function of the webhook
outcome and the random sources (`rnd`/`rid` feed the mock generator,
`genIds` the normalizer's fallback ids, indexed by element position). Every
throw — HTTP error, JSON parse error, empty data set, or a `TypeError`
from normalizing a `null`/`undefined` element — lands in the `catch`
branch. -/
def fetchData (outcome : FetchOutcome) (rnd : ℕ → ℚ × ℚ × ℚ) (rid : ℕ → String)
    (genIds : ℕ → String) : LoaderResult :=
  match outcome with
  | FetchOutcome.httpError => mockResult rnd rid
  | FetchOutcome.jsonError => mockResult rnd rid
  | FetchOutcome.ok body =>
    let dataArray := toArray body
    if dataArray.isEmpty then mockResult rnd rid
    else
      match mapFormat genIds 0 dataArray with
      | none => mockResult rnd rid
      | some recs =>
        { records := recs
          usingMockData := false
          status := LoadingStatus.SUCCESS }

/-- `uniqueNames`: `['All', ...new Set(rawData.map(r => r.name))].sort()` —
note the wildcard is prefixed before sorting. -/
def uniqueNames (l : List DataRecord) : List String :=
  List.insertionSort nameRel ("All" :: jsSetDedup (l.map fun r => r.name))

/-- `uniqueMonths`: `['All', ...new Set(rawData.map(r => r.monthYear))]`
sorted by the month comparator. -/
def uniqueMonths (l : List DataRecord) : List String :=
  List.insertionSort monthRel ("All" :: jsSetDedup (l.map fun r => r.monthYear))

/-- The `.sort` call of `uniqueMonths` in isolation (used for the spec's
concrete month-ordering example). -/
def sortMonths (ms : List String) : List String :=
  List.insertionSort monthRel ms

/-- `filteredData`: keep records matching both selected filters, `'All'`
being the wildcard. -/
def filteredData (l : List DataRecord) (filterName filterMonth : String) :
    List DataRecord :=
  l.filter fun r =>
    (filterName == "All" || r.name == filterName) &&
      (filterMonth == "All" || r.monthYear == filterMonth)

/-- Accumulator of the `reduce` in `stats` (the `collectionRate` field is
added afterwards). -/
structure StatsAcc where
  totalPotentialRevenue : ℚ
  totalInvoiceAmount : ℚ
  totalDollarsCollected : ℚ
  totalExpenseIncurred : ℚ
  totalNetRevenue : ℚ

/-- The `DashboardStats` interface of `types.ts`. -/
structure DashboardStats where
  totalPotentialRevenue : ℚ
  totalInvoiceAmount : ℚ
  totalDollarsCollected : ℚ
  totalExpenseIncurred : ℚ
  totalNetRevenue : ℚ
  collectionRate : ℚ

/-- The callback of the `reduce` in `stats`. -/
def statsStep (acc : StatsAcc) (curr : DataRecord) : StatsAcc :=
  { totalPotentialRevenue := acc.totalPotentialRevenue + curr.potentialRevenue
    totalInvoiceAmount := acc.totalInvoiceAmount + curr.invoiceAmount
    totalDollarsCollected := acc.totalDollarsCollected + curr.dollarsCollected
    totalExpenseIncurred := acc.totalExpenseIncurred + curr.expenseIncurred
    totalNetRevenue := acc.totalNetRevenue + curr.netRevenue }

/-- The `reduce` of `stats`, from the all-zero accumulator. -/
def statsFold (l : List DataRecord) : StatsAcc :=
  l.foldl statsStep
    { totalPotentialRevenue := 0
      totalInvoiceAmount := 0
      totalDollarsCollected := 0
      totalExpenseIncurred := 0
      totalNetRevenue := 0 }

/-- `stats`: the reduced sums plus the derived `collectionRate`. -/
def statsOf (l : List DataRecord) : DashboardStats :=
  let s := statsFold l
  { totalPotentialRevenue := s.totalPotentialRevenue
    totalInvoiceAmount := s.totalInvoiceAmount
    totalDollarsCollected := s.totalDollarsCollected
    totalExpenseIncurred := s.totalExpenseIncurred
    totalNetRevenue := s.totalNetRevenue
    collectionRate :=
      if s.totalInvoiceAmount > 0 then s.totalDollarsCollected / s.totalInvoiceAmount * 100
      else 0 }

/-! ### Helper lemmas -/

theorem isNull_eq_false_iff (v : JSVal) : isNull v = false ↔ v ≠ JSVal.vNull := by
  cases v <;> simp [isNull]

theorem truthy_jsOr (a b : JSVal) : truthy (jsOr a b) = (truthy a || truthy b) := by
  unfold jsOr
  by_cases h : truthy a <;> simp [h]

theorem filteredData_all (l : List DataRecord) : filteredData l "All" "All" = l := by
  simp [filteredData]

theorem mem_filteredData (l : List DataRecord) (fn fm : String) (r : DataRecord) :
    r ∈ filteredData l fn fm ↔
      r ∈ l ∧ ((fn = "All" ∨ r.name = fn) ∧ (fm = "All" ∨ r.monthYear = fm)) := by
  simp [filteredData, List.mem_filter]

/-! ### Claim theorems -/

/-- The smallest magnitude that IEEE-754 double rounding (the number type
of JS) sends to `Infinity`: the midpoint `2^1024 - 2^970` just above the
largest finite double `(2 - 2^-52) * 2^1023`.  An exact parse result at or
beyond it is returned by the real `parseFloat` as `Infinity` — which
`isNaN` does not absorb — so `parseCurrency` passes a non-finite number
through. -/
def dblOverflow : ℚ := 2 ^ 1024 - 2 ^ 970

/-- A 310-digit textual amount, of exact value `10 ^ 309`. -/
def hugeAmount : String := String.mk ('1' :: List.replicate 309 '0')

set_option maxRecDepth 8000 in
/-- C2 counterexample: the textual amount `hugeAmount` is *not* absorbed
into 0 (its cleaned form parses), and its exact parsed value `10 ^ 309`
lies beyond the double overflow threshold, so at this input the program's
`parseFloat` returns `Infinity` and `parseCurrency`'s result is not a
finite number — refuting the claim's finiteness clause. -/
theorem parseCurrency_infinite_cex :
    parseCurrency (JSVal.vStr hugeAmount) = (10 : ℚ) ^ 309 ∧
    (10 : ℚ) ^ 309 ≥ dblOverflow ∧
    parseFloatQ (cleanChars hugeAmount) ≠ none := by
  have hps : parseFloatScaled (cleanChars (jsToString (JSVal.vStr hugeAmount))) =
      some (10 ^ 309, 0) := by decide
  have hps2 : parseFloatScaled (cleanChars hugeAmount) = some (10 ^ 309, 0) := hps
  refine ⟨?_, ?_, ?_⟩
  · rw [parseCurrency_eval (n := 10 ^ 309) (e := 0) (by decide)
      (by intro q h; cases h) hps]
    push_cast
    rw [pow_zero, div_one]
  · unfold dblOverflow
    rw [show (309 : ℕ) = 103 * 3 from rfl, show (1024 : ℕ) = 256 * 4 from rfl,
      show (970 : ℕ) = 194 * 5 from rfl, pow_mul, pow_mul, pow_mul]
    norm_num
  · rw [parseFloatQ, hps2]
    simp

/-- C2 amended: `parseCurrency` never throws; `null`/`undefined`/`""` map
to 0, numeric input is returned as-is, textual input whose cleaned form
does not parse maps to 0, and textual input whose cleaned form parses
yields the parsed decimal value.  The result is *not* always a finite
number: an exact value at or beyond `dblOverflow` is `Infinity` at runtime
(see `parseCurrency_infinite_cex`), so finiteness holds only below the
double overflow threshold. -/
theorem parseCurrency_contract :
    (parseCurrency JSVal.vNull = 0 ∧ parseCurrency JSVal.vUndefined = 0 ∧
      parseCurrency (JSVal.vStr "") = 0) ∧
    (∀ q : ℚ, parseCurrency (JSVal.vNum q) = q) ∧
    (∀ s : String, s ≠ "" → parseFloatQ (cleanChars s) = none →
      parseCurrency (JSVal.vStr s) = 0) ∧
    (∀ s : String, s ≠ "" → ∀ q : ℚ, parseFloatQ (cleanChars s) = some q →
      parseCurrency (JSVal.vStr s) = q) := by
  refine ⟨⟨rfl, rfl, rfl⟩, fun q => rfl, ?_, ?_⟩
  · intro s hs h2
    unfold parseCurrency
    rw [show isEmptyInput (JSVal.vStr s) = false by simp [isEmptyInput, hs]]
    change (match parseFloatQ (cleanChars s) with | some q => q | none => 0 : ℚ) = 0
    rw [h2]
  · intro s hs q hq
    unfold parseCurrency
    rw [show isEmptyInput (JSVal.vStr s) = false by simp [isEmptyInput, hs]]
    change (match parseFloatQ (cleanChars s) with | some q => q | none => 0 : ℚ) = q
    rw [hq]

/-- Witness for C2 at the unparsable string `"abc"` and the parsable
string `"$1,250.00"`. -/
theorem parseCurrency_contract_witness :
    ("abc" ≠ "" ∧ parseCurrency (JSVal.vStr "abc") = 0) ∧
    ("$1,250.00" ≠ "" ∧ parseCurrency (JSVal.vStr "$1,250.00") = 1250) :=
  ⟨⟨by decide, parseCurrency_contract.2.2.1 "abc" (by decide) (by decide)⟩,
    ⟨by decide, parseCurrency_contract.2.2.2 "$1,250.00" (by decide) 1250
      (by
        rw [parseFloatQ, show parseFloatScaled (cleanChars "$1,250.00") =
          some (125000, 2) from by decide]
        change some (scaledToQ (125000, 2)) = some 1250
        norm_num [scaledToQ])⟩⟩

/-- The raw item of the C1 counterexample: `Dollars Collected` and
`Expense Incurred` supplied, the net-revenue field absent. -/
def cexItemC1 : JSVal :=
  JSVal.vObj [("Dollars Collected", JSVal.vStr "50"), ("Expense Incurred", JSVal.vStr "10")]

theorem parse50 : parseCurrency (JSVal.vStr "50") = 50 := by
  rw [parseCurrency_eval (n := 50) (e := 0) (by decide) (by intro q h; cases h) (by decide)]
  norm_num

theorem parse10 : parseCurrency (JSVal.vStr "10") = 10 := by
  rw [parseCurrency_eval (n := 10) (e := 0) (by decide) (by intro q h; cases h) (by decide)]
  norm_num

/-- C1 counterexample: with the net-revenue field absent the code computes
`parseCurrency(undefined) = 0` (because `undefined !== null`), not
`dollarsCollected - expenseIncurred = 40` as the claim states. -/
theorem netRevenue_absent_cex :
    (formatRecord "x" cexItemC1).netRevenue = 0 ∧
    (formatRecord "x" cexItemC1).dollarsCollected -
        (formatRecord "x" cexItemC1).expenseIncurred = 40 ∧
    (0 : ℚ) ≠ 40 := by
  have g1 : objGet cexItemC1 "Net Revenue" = JSVal.vUndefined := rfl
  have g2 : objGet cexItemC1 "Dollars Collected" = JSVal.vStr "50" := rfl
  have g3 : objGet cexItemC1 "Expense Incurred" = JSVal.vStr "10" := rfl
  refine ⟨?_, ?_, by norm_num⟩
  · simp only [formatRecord, g1, isNull, Bool.not_false, if_true]
    rfl
  · simp only [formatRecord, g2, g3, parse50, parse10]
    norm_num

/-- C1 amended: `netRevenue` equals `dollarsCollected - expenseIncurred`
only when the raw net-revenue field is present and exactly `null`;
otherwise (present non-null, or absent) it equals the Currency Parser
applied to the field's value — in particular 0 when the field is absent. -/
theorem netRevenue_resolution (genId : String) (item : JSVal) :
    (objGet item "Net Revenue" = JSVal.vNull →
      (formatRecord genId item).netRevenue =
        (formatRecord genId item).dollarsCollected -
          (formatRecord genId item).expenseIncurred) ∧
    (objGet item "Net Revenue" ≠ JSVal.vNull →
      (formatRecord genId item).netRevenue =
        parseCurrency (objGet item "Net Revenue")) ∧
    (objGet item "Net Revenue" = JSVal.vUndefined →
      (formatRecord genId item).netRevenue = 0) := by
  refine ⟨fun h => ?_, fun h => ?_, fun h => ?_⟩
  · simp [formatRecord, h, isNull]
  · simp [formatRecord, (isNull_eq_false_iff _).mpr h]
  · simp [formatRecord, h, isNull]
    rfl

/-- The raw item of the C1 witness: net-revenue field present and null. -/
def witItemC1 : JSVal :=
  JSVal.vObj [("Net Revenue", JSVal.vNull),
    ("Dollars Collected", JSVal.vStr "50"), ("Expense Incurred", JSVal.vStr "10")]

/-- Witness for the amended C1: both branches applied at concrete items. -/
theorem netRevenue_resolution_witness :
    (formatRecord "w" witItemC1).netRevenue =
        (formatRecord "w" witItemC1).dollarsCollected -
          (formatRecord "w" witItemC1).expenseIncurred ∧
    (formatRecord "w" cexItemC1).netRevenue = parseCurrency JSVal.vUndefined :=
  ⟨(netRevenue_resolution "w" witItemC1).1 rfl,
    (netRevenue_resolution "w" cexItemC1).2.1
      (by rw [show objGet cexItemC1 "Net Revenue" = JSVal.vUndefined from rfl]; simp)⟩

/-- The raw item of the C5 counterexample: an earlier alias key present
with a defined but falsy (empty-string) value. -/
def cexItemC5 : JSVal :=
  JSVal.vObj [("Opportunity ID", JSVal.vStr ""), ("id", JSVal.vStr "abc"),
    ("Name", JSVal.vStr ""), ("name", JSVal.vStr "bob")]

/-- C5 counterexample: a defined empty string under `'Opportunity ID'`
(resp. `'Name'`) is skipped by `||`, so the later candidate wins, contrary
to the claim that the first *defined* value is used. -/
theorem alias_resolution_cex :
    (formatRecord "g" cexItemC5).id = JSVal.vStr "abc" ∧
    (formatRecord "g" cexItemC5).name = JSVal.vStr "bob" ∧
    JSVal.vStr "abc" ≠ JSVal.vStr "" ∧ JSVal.vStr "bob" ≠ JSVal.vStr "" := by
  refine ⟨rfl, rfl, ?_, ?_⟩ <;> simp

/-- C5 amended: `id` is the first *truthy* value among
`'Opportunity ID'`, `id`, `key` (defined-but-falsy values such as `""` or
`0` are skipped), with the generated identifier when none is truthy, and
`name` is the first truthy of `Name`, `name` with default
`'Unknown Entity'`. -/
theorem alias_resolution (genId : String) (item : JSVal) :
    (formatRecord genId item).id =
      (([objGet item "Opportunity ID", objGet item "id",
          objGet item "key"].find? truthy).getD (JSVal.vStr genId)) ∧
    (formatRecord genId item).name =
      (([objGet item "Name", objGet item "name"].find? truthy).getD
        (JSVal.vStr "Unknown Entity")) := by
  constructor
  · simp only [formatRecord]
    by_cases t1 : truthy (objGet item "Opportunity ID") <;>
      by_cases t2 : truthy (objGet item "id") <;>
        by_cases t3 : truthy (objGet item "key") <;>
          simp [jsOr, t1, t2, t3, List.find?]
  · simp only [formatRecord]
    by_cases t1 : truthy (objGet item "Name") <;>
      by_cases t2 : truthy (objGet item "name") <;>
        simp [jsOr, t1, t2, List.find?]

/-- C9: normalizing the empty object yields the documented defaults; the
`id` is the freshly generated random identifier, non-empty whenever the
generator's output is. -/
theorem empty_object_defaults (genId : String) (h : genId ≠ "") :
    (formatRecord genId (JSVal.vObj [])).name = JSVal.vStr "Unknown Entity" ∧
    (formatRecord genId (JSVal.vObj [])).monthYear = JSVal.vStr "01/2024" ∧
    (formatRecord genId (JSVal.vObj [])).potentialRevenue = 0 ∧
    (formatRecord genId (JSVal.vObj [])).invoiceAmount = 0 ∧
    (formatRecord genId (JSVal.vObj [])).dollarsCollected = 0 ∧
    (formatRecord genId (JSVal.vObj [])).expenseIncurred = 0 ∧
    (formatRecord genId (JSVal.vObj [])).netRevenue = 0 ∧
    ∃ s : String, (formatRecord genId (JSVal.vObj [])).id = JSVal.vStr s ∧ s ≠ "" :=
  ⟨rfl, rfl, rfl, rfl, rfl, rfl, rfl, genId, rfl, h⟩

/-- Witness for C9 at a concrete generated identifier. -/
theorem empty_object_defaults_witness :
    ("k3j9splq2" : String) ≠ "" ∧
      (formatRecord "k3j9splq2" (JSVal.vObj [])).name = JSVal.vStr "Unknown Entity" :=
  ⟨by decide, (empty_object_defaults "k3j9splq2" (by decide)).1⟩

/-- C6: a record of the collection is in the filtered output iff it passes
both filter selectors (with `'All'` as wildcard); the output is a
subsequence of the collection (order-preserving), and no longer than it. -/
theorem filtering_correct (l : List DataRecord) (fn fm : String) :
    (∀ r ∈ l, (r ∈ filteredData l fn fm ↔
      ((fn = "All" ∨ r.name = fn) ∧ (fm = "All" ∨ r.monthYear = fm)))) ∧
    (filteredData l fn fm).Sublist l ∧
    (filteredData l fn fm).length ≤ l.length := by
  refine ⟨fun r hr => ?_, List.filter_sublist l, List.length_filter_le _ l⟩
  rw [mem_filteredData]
  exact ⟨fun h => h.2, fun h => ⟨hr, h⟩⟩

/-- A concrete record used by witnesses. -/
def recA : DataRecord :=
  ⟨"1", "Acme", 0, 0, 0, 0, 0, "01/2024"⟩

/-- A concrete record used by witnesses. -/
def recB : DataRecord :=
  ⟨"2", "Beta", 0, 0, 0, 0, 0, "02/2024"⟩

/-- Witness for C6: the matching record is kept by a concrete filter. -/
theorem filtering_correct_witness :
    recA ∈ filteredData [recA, recB] "Acme" "All" :=
  ((filtering_correct [recA, recB] "Acme" "All").1 recA (by decide)).mpr (by decide)

theorem foldl_statsStep (l : List DataRecord) :
    ∀ acc : StatsAcc,
      (l.foldl statsStep acc).totalPotentialRevenue =
          acc.totalPotentialRevenue + (l.map fun r => r.potentialRevenue).sum ∧
        (l.foldl statsStep acc).totalInvoiceAmount =
          acc.totalInvoiceAmount + (l.map fun r => r.invoiceAmount).sum ∧
        (l.foldl statsStep acc).totalDollarsCollected =
          acc.totalDollarsCollected + (l.map fun r => r.dollarsCollected).sum ∧
        (l.foldl statsStep acc).totalExpenseIncurred =
          acc.totalExpenseIncurred + (l.map fun r => r.expenseIncurred).sum ∧
        (l.foldl statsStep acc).totalNetRevenue =
          acc.totalNetRevenue + (l.map fun r => r.netRevenue).sum := by
  induction l with
  | nil => intro acc; simp
  | cons r t ih =>
    intro acc
    obtain ⟨i1, i2, i3, i4, i5⟩ := ih (statsStep acc r)
    simp only [statsStep] at i1 i2 i3 i4 i5
    refine ⟨?_, ?_, ?_, ?_, ?_⟩ <;>
      simp only [List.foldl_cons, List.map_cons, List.sum_cons, statsStep,
        i1, i2, i3, i4, i5] <;>
      ring

/-- C7: each `DashboardStats` total is the sum of the corresponding field
over the collection; with both filters at the wildcard
`totalDollarsCollected` sums all records; and `collectionRate` is
`collected/invoiced*100` when the invoiced total is positive, else 0. -/
theorem stats_aggregation (l : List DataRecord) :
    (statsOf l).totalPotentialRevenue = (l.map fun r => r.potentialRevenue).sum ∧
    (statsOf l).totalInvoiceAmount = (l.map fun r => r.invoiceAmount).sum ∧
    (statsOf l).totalDollarsCollected = (l.map fun r => r.dollarsCollected).sum ∧
    (statsOf l).totalExpenseIncurred = (l.map fun r => r.expenseIncurred).sum ∧
    (statsOf l).totalNetRevenue = (l.map fun r => r.netRevenue).sum ∧
    (statsOf (filteredData l "All" "All")).totalDollarsCollected =
      (l.map fun r => r.dollarsCollected).sum ∧
    ((statsOf l).totalInvoiceAmount > 0 →
      (statsOf l).collectionRate =
        (statsOf l).totalDollarsCollected / (statsOf l).totalInvoiceAmount * 100) ∧
    (¬(statsOf l).totalInvoiceAmount > 0 → (statsOf l).collectionRate = 0) := by
  have key : ∀ m : List DataRecord,
      (statsOf m).totalPotentialRevenue = (m.map fun r => r.potentialRevenue).sum ∧
        (statsOf m).totalInvoiceAmount = (m.map fun r => r.invoiceAmount).sum ∧
        (statsOf m).totalDollarsCollected = (m.map fun r => r.dollarsCollected).sum ∧
        (statsOf m).totalExpenseIncurred = (m.map fun r => r.expenseIncurred).sum ∧
        (statsOf m).totalNetRevenue = (m.map fun r => r.netRevenue).sum := by
    intro m
    obtain ⟨h1, h2, h3, h4, h5⟩ := foldl_statsStep m
      { totalPotentialRevenue := 0, totalInvoiceAmount := 0, totalDollarsCollected := 0
        totalExpenseIncurred := 0, totalNetRevenue := 0 }
    refine ⟨?_, ?_, ?_, ?_, ?_⟩ <;>
      simp only [statsOf, statsFold, h1, h2, h3, h4, h5] <;> ring
  obtain ⟨h1, h2, h3, h4, h5⟩ := key l
  refine ⟨h1, h2, h3, h4, h5, ?_, fun hpos => ?_, fun hneg => ?_⟩
  · rw [filteredData_all]
    exact (key l).2.2.1
  · have : (statsFold l).totalInvoiceAmount > 0 := hpos
    simp only [statsOf, gt_iff_lt]
    rw [if_pos this]
  · have : ¬(statsFold l).totalInvoiceAmount > 0 := hneg
    simp only [statsOf, gt_iff_lt]
    rw [if_neg this]

/-- A concrete record with nonzero amounts, for the C7 witness. -/
def recW : DataRecord :=
  ⟨"w", "Acme", 20, 10, 5, 1, 4, "01/2024"⟩

/-- Witness for C7: a positive invoiced total activates the ratio branch
of `collectionRate`. -/
theorem stats_aggregation_witness :
    (statsOf [recW]).totalInvoiceAmount > 0 ∧
      (statsOf [recW]).collectionRate =
        (statsOf [recW]).totalDollarsCollected / (statsOf [recW]).totalInvoiceAmount * 100 := by
  have hpos : (statsOf [recW]).totalInvoiceAmount > 0 := by
    norm_num [statsOf, statsFold, statsStep, recW]
  exact ⟨hpos, (stats_aggregation [recW]).2.2.2.2.2.2.1 hpos⟩

/-- A concrete record whose name precedes `'All'` lexicographically. -/
def recAcme : DataRecord :=
  ⟨"a1", "Acme", 0, 0, 0, 0, 0, "01/2024"⟩

/-- C3 counterexample: with a record named `'Acme'`, the name-option list
is `['Acme', 'All']` — the wildcard is *not* the first element, because
`.sort()` runs after `'All'` is prefixed and `'Acme' < 'All'`
lexicographically. -/
theorem uniqueNames_cex :
    uniqueNames [recAcme] = ["Acme", "All"] ∧ "Acme" ≠ "All" := by decide

/-- C3 amended: the name-option list is the lexicographic sort of the
wildcard `'All'` together with the distinct record names — `'All'` sits at
its lexicographic position rather than always first. -/
theorem uniqueNames_sorted (l : List DataRecord) :
    List.Sorted nameRel (uniqueNames l) ∧
    (uniqueNames l).Perm ("All" :: jsSetDedup (l.map fun r => r.name)) ∧
    (∀ s, s ∈ uniqueNames l ↔ s = "All" ∨ ∃ r ∈ l, r.name = s) := by
  refine ⟨List.sorted_insertionSort nameRel _, List.perm_insertionSort nameRel _,
    fun s => ?_⟩
  rw [show uniqueNames l =
    List.insertionSort nameRel ("All" :: jsSetDedup (l.map fun r => r.name)) from rfl]
  rw [(List.perm_insertionSort nameRel _).mem_iff, List.mem_cons, jsSetDedup_mem,
    List.mem_map]

/-- A concrete record named `'All'`, for C10. -/
def recAll : DataRecord :=
  ⟨"z", "All", 0, 0, 0, 0, 0, "03/2024"⟩

/-- C10: if some record is named `'All'`, the name-option list contains
`'All'` twice, the all-wildcard filter keeps every record, and any name
selection that keeps the `'All'`-named record keeps the whole collection —
the record cannot be isolated by the name filter. -/
theorem wildcard_collision (l : List DataRecord) (r : DataRecord)
    (hr : r ∈ l) (hname : r.name = "All") :
    (uniqueNames l).count "All" = 2 ∧
    filteredData l "All" "All" = l ∧
    (∀ fn, r ∈ filteredData l fn "All" → filteredData l fn "All" = l) := by
  refine ⟨?_, filteredData_all l, fun fn hmem => ?_⟩
  · unfold uniqueNames
    rw [(List.perm_insertionSort nameRel _).count_eq]
    rw [List.count_cons_self]
    have hmemAll : "All" ∈ jsSetDedup (l.map fun r => r.name) :=
      (jsSetDedup_mem _ _).mpr (List.mem_map.mpr ⟨r, hr, hname⟩)
    rw [List.count_eq_one_of_mem (jsSetDedup_nodup _) hmemAll]
  · obtain ⟨-, hfn, -⟩ := (mem_filteredData l fn "All" r).mp hmem
    rcases hfn with rfl | hfn
    · exact filteredData_all l
    · have : fn = "All" := by rw [← hfn]; exact hname
      rw [this]
      exact filteredData_all l

/-- Witness for C10 on a concrete collection containing an
`'All'`-named record. -/
theorem wildcard_collision_witness :
    (uniqueNames [recAll, recAcme]).count "All" = 2 ∧
    filteredData [recAll, recAcme] "All" "All" = [recAll, recAcme] ∧
    (∀ fn, recAll ∈ filteredData [recAll, recAcme] fn "All" →
      filteredData [recAll, recAcme] fn "All" = [recAll, recAcme]) :=
  wildcard_collision [recAll, recAcme] recAll (by decide) (by decide)

theorem orderedInsert_all (ys : List String) :
    List.orderedInsert monthRel "All" ys = "All" :: ys := by
  cases ys with
  | nil => rfl
  | cons y t =>
    have hAll : monthRel "All" y := by
      unfold monthRel monthCmp
      norm_num
    simp only [List.orderedInsert, if_pos hAll]

/-- C8: under the `MM/YYYY` data-model invariant (every `monthYear`
decodes to a key and is not the wildcard), the month-option list is `'All'`
followed by the distinct months in chronological key order; and the spec's
concrete example sorts as stated. -/
theorem uniqueMonths_ordering (l : List DataRecord)
    (h : ∀ r ∈ l, (monthKeyQ r.monthYear).isSome ∧ r.monthYear ≠ "All") :
    (∃ rest, uniqueMonths l = "All" :: rest ∧
      rest.Perm (jsSetDedup (l.map fun r => r.monthYear)) ∧
      List.Sorted monthKeyRel rest) ∧
    sortMonths ["03/2024", "01/2024", "All", "02/2024"] =
      ["All", "01/2024", "02/2024", "03/2024"] := by
  constructor
  · set xs := jsSetDedup (l.map fun r => r.monthYear) with hxs
    have hP : ∀ x ∈ xs, (monthKeyQ x).isSome ∧ x ≠ "All" := by
      intro x hx
      rw [hxs, jsSetDedup_mem] at hx
      obtain ⟨r, hr, hrx⟩ := List.mem_map.mp hx
      exact hrx ▸ h r hr
    have hagree : ∀ a ∈ xs, ∀ b ∈ xs, monthRel a b ↔ monthKeyRel a b := by
      intro a ha b hb
      obtain ⟨hka, hna⟩ := hP a ha
      obtain ⟨hkb, hnb⟩ := hP b hb
      obtain ⟨ka, hka2⟩ := Option.isSome_iff_exists.mp hka
      obtain ⟨kb, hkb2⟩ := Option.isSome_iff_exists.mp hkb
      unfold monthRel monthCmp monthKeyRel monthKeyD
      rw [hka2, hkb2]
      rw [show (a == "All") = false from beq_eq_false_iff_ne.mpr hna]
      rw [show (b == "All") = false from beq_eq_false_iff_ne.mpr hnb]
      simp [sub_nonpos]
    have heq : List.insertionSort monthRel xs = List.insertionSort monthKeyRel xs :=
      insertionSort_congr monthRel monthKeyRel xs hagree
    refine ⟨List.insertionSort monthRel xs, ?_, List.perm_insertionSort monthRel xs, ?_⟩
    · show List.orderedInsert monthRel "All" (List.insertionSort monthRel xs) =
        "All" :: List.insertionSort monthRel xs
      exact orderedInsert_all _
    · rw [heq]
      exact List.sorted_insertionSort monthKeyRel xs
  · decide

/-- Witness for C8 on a concrete two-record collection with well-formed
months. -/
theorem uniqueMonths_ordering_witness :
    ∃ rest, uniqueMonths [recA, recB] = "All" :: rest ∧
      rest.Perm (jsSetDedup ([recA, recB].map fun r => r.monthYear)) ∧
      List.Sorted monthKeyRel rest :=
  (uniqueMonths_ordering [recA, recB] (by decide)).1

theorem generateMockData_length (rnd : ℕ → ℚ × ℚ × ℚ) (rid : ℕ → String) :
    (generateMockData rnd rid).length = 25 := by
  have hn : mockNames.enum = [(0, "Acme Corp"), (1, "Globex"), (2, "Soylent Corp"),
      (3, "Initech"), (4, "Umbrella Co")] := rfl
  have hm : mockMonths.enum = [(0, "01/2024"), (1, "02/2024"), (2, "03/2024"),
      (3, "04/2024"), (4, "05/2024")] := rfl
  simp [generateMockData, hn, hm]

theorem formatRecordE_of_nullish {item : JSVal} (genId : String)
    (h : isNullish item = true) : formatRecordE genId item = none := by
  simp [formatRecordE, objGetE, h]

theorem formatRecordE_of_not_nullish {item : JSVal} (genId : String)
    (h : isNullish item = false) :
    formatRecordE genId item = some (formatRecord genId item) := by
  simp [formatRecordE, objGetE, h]

theorem mapFormat_eq_none (genIds : ℕ → String) :
    ∀ (i : ℕ) (arr : List JSVal) (v : JSVal), v ∈ arr → isNullish v = true →
      mapFormat genIds i arr = none
  | _, [], v, hv, _ => absurd hv (List.not_mem_nil v)
  | i, x :: xs, v, hv, hnv => by
    rcases List.mem_cons.mp hv with rfl | hv2
    · simp only [mapFormat, formatRecordE_of_nullish _ hnv]
    · cases hfx : formatRecordE (genIds i) x with
      | none => simp only [mapFormat, hfx]
      | some r =>
        simp only [mapFormat, hfx, mapFormat_eq_none genIds (i + 1) xs v hv2 hnv]

theorem mapFormat_eq_some (genIds : ℕ → String) :
    ∀ (i : ℕ) (arr : List JSVal), (∀ v ∈ arr, isNullish v = false) →
      mapFormat genIds i arr =
        some ((List.enumFrom i arr).map fun p => formatRecord (genIds p.1) p.2)
  | _, [], _ => rfl
  | i, x :: xs, h => by
    simp only [mapFormat, formatRecordE_of_not_nullish _ (h x (List.mem_cons_self x xs)),
      mapFormat_eq_some genIds (i + 1) xs fun v hv => h v (List.mem_cons_of_mem _ hv),
      List.enumFrom, List.map_cons]

/-- C4 counterexample: `[null]` is a successful, non-empty response, but
normalizing its element throws a `TypeError` (`null['Potential Revenue']`),
so the loader lands in the `catch` branch with the mock records and
`usingMockData = true` — not `false` as the claim's success clause
states. -/
theorem fetchData_null_element_cex :
    toArray (FetchBody.arrayOf [JSVal.vNull]) ≠ [] ∧
    (fetchData (FetchOutcome.ok (FetchBody.arrayOf [JSVal.vNull])) (fun _ => (0, 0, 0))
        (fun _ => "mockid") (fun _ => "mockid")).usingMockData = true ∧
    (fetchData (FetchOutcome.ok (FetchBody.arrayOf [JSVal.vNull])) (fun _ => (0, 0, 0))
        (fun _ => "mockid") (fun _ => "mockid")).records =
      (generateMockData (fun _ => (0, 0, 0)) (fun _ => "mockid")).map toNorm ∧
    (true : Bool) ≠ false := by
  refine ⟨?_, rfl, rfl, by simp⟩
  intro h
  cases h

/-- C4 amended: every failure path of the loader — HTTP error, JSON parse
error, an empty parsed collection, or a `TypeError` thrown while
normalizing (a `null`/`undefined` element) — ends with the 25 mock
records, `usingMockData = true` and status `SUCCESS`; a successful
non-empty response whose elements all survive normalization ends with
every element normalized, `usingMockData = false` and status `SUCCESS`;
the final status is `SUCCESS` in all cases. -/
theorem fetchData_contract (outcome : FetchOutcome) (rnd : ℕ → ℚ × ℚ × ℚ)
    (rid : ℕ → String) (genIds : ℕ → String) :
    ((outcome = FetchOutcome.httpError ∨ outcome = FetchOutcome.jsonError ∨
        (∃ body, outcome = FetchOutcome.ok body ∧
          (toArray body = [] ∨ ∃ v ∈ toArray body, isNullish v = true))) →
      (fetchData outcome rnd rid genIds).records =
          (generateMockData rnd rid).map toNorm ∧
        (fetchData outcome rnd rid genIds).records.length = 25 ∧
        (fetchData outcome rnd rid genIds).usingMockData = true ∧
        (fetchData outcome rnd rid genIds).status = LoadingStatus.SUCCESS) ∧
    (∀ body, outcome = FetchOutcome.ok body → toArray body ≠ [] →
      (∀ v ∈ toArray body, isNullish v = false) →
      (fetchData outcome rnd rid genIds).records =
          (toArray body).enum.map (fun p => formatRecord (genIds p.1) p.2) ∧
        (fetchData outcome rnd rid genIds).usingMockData = false ∧
        (fetchData outcome rnd rid genIds).status = LoadingStatus.SUCCESS) ∧
    (fetchData outcome rnd rid genIds).status = LoadingStatus.SUCCESS := by
  refine ⟨fun hfail => ?_, fun body hok hne hok2 => ?_, ?_⟩
  · have hlen : ((generateMockData rnd rid).map toNorm).length = 25 := by
      rw [List.length_map]
      exact generateMockData_length rnd rid
    rcases hfail with rfl | rfl | ⟨body, rfl, hempty | ⟨v, hv, hnv⟩⟩
    · exact ⟨rfl, hlen, rfl, rfl⟩
    · exact ⟨rfl, hlen, rfl, rfl⟩
    · have hemp : (toArray body).isEmpty = true := by
        rw [hempty]
        rfl
      simp only [fetchData, hemp, if_true]
      exact ⟨rfl, hlen, rfl, rfl⟩
    · have hemp : (toArray body).isEmpty = false := by
        cases harr : toArray body with
        | nil => rw [harr] at hv; exact absurd hv (List.not_mem_nil v)
        | cons x t => rfl
      have hmap : mapFormat genIds 0 (toArray body) = none :=
        mapFormat_eq_none genIds 0 (toArray body) v hv hnv
      simp only [fetchData, hemp, Bool.false_eq_true, if_false, hmap]
      exact ⟨rfl, hlen, rfl, rfl⟩
  · subst hok
    have hemp : (toArray body).isEmpty = false := by
      cases harr : toArray body with
      | nil => exact absurd harr hne
      | cons x t => rfl
    have hmap : mapFormat genIds 0 (toArray body) =
        some ((toArray body).enum.map fun p => formatRecord (genIds p.1) p.2) :=
      mapFormat_eq_some genIds 0 (toArray body) hok2
    simp [fetchData, hemp, hmap]
  · cases outcome with
    | httpError => rfl
    | jsonError => rfl
    | ok body =>
      by_cases hemp : (toArray body).isEmpty = true
      · simp only [fetchData, hemp, if_true]
        rfl
      · rw [Bool.not_eq_true] at hemp
        simp only [fetchData, hemp, Bool.false_eq_true, if_false]
        cases mapFormat genIds 0 (toArray body) <;> rfl

/-- Trivial random sources for the C4 witness. -/
def noRnd : ℕ → ℚ × ℚ × ℚ := fun _ => (0, 0, 0)

/-- Trivial id source for the C4 witness. -/
def noRid : ℕ → String := fun _ => "mockid"

/-- Witness for C4: the empty-array webhook response (the end-to-end case
of the spec) falls back to 25 mock records, and a one-object response —
all elements non-nullish — takes the live path. -/
theorem fetchData_contract_witness :
    ((fetchData (FetchOutcome.ok (FetchBody.arrayOf [])) noRnd noRid noRid).records.length
        = 25 ∧
      (fetchData (FetchOutcome.ok (FetchBody.arrayOf [])) noRnd noRid noRid).usingMockData
        = true ∧
      (fetchData (FetchOutcome.ok (FetchBody.arrayOf [])) noRnd noRid noRid).status
        = LoadingStatus.SUCCESS) ∧
    (fetchData (FetchOutcome.ok (FetchBody.single (JSVal.vObj []))) noRnd noRid
        noRid).usingMockData = false :=
  ⟨(fun h => ⟨h.2.1, h.2.2.1, h.2.2.2⟩)
      ((fetchData_contract (FetchOutcome.ok (FetchBody.arrayOf [])) noRnd noRid noRid).1
        (Or.inr (Or.inr ⟨FetchBody.arrayOf [], rfl, Or.inl rfl⟩))),
    ((fetchData_contract (FetchOutcome.ok (FetchBody.single (JSVal.vObj []))) noRnd noRid
        noRid).2.1 (FetchBody.single (JSVal.vObj [])) rfl (by simp [toArray])
      (by
        intro v hv
        rcases List.mem_singleton.mp hv with rfl
        rfl)).2.1⟩

end Dashboard
